import Mathlib

/-!
Verification of the anchor-point correction pipeline
(`scripts/fix_anchor_points.py`).

The pipeline processes an ordered sequence of anchor records.  For each
record it queries a POI search service (Nominatim) for the record's name and
postcode, on a match queries an entity service (Overpass) for entrance nodes
near the POI point, selects the best entrance candidate by a three-way
score, runs a plausibility bounding-box check on the final point, and
persists corrected columns plus one changelog entry per record.

Coordinates are modelled as rationals (the source uses Python floats for
decimal coordinate values), external responses as `Except` values (a raised
exception is the `.error` case, a successful HTTP response the `.ok` case),
and tag dictionaries as association lists.
-/

/-- `is_plausible_uk` from the source: bounding-box containment test,
`49.8 <= lat <= 60.9 and -8.6 <= lon <= 1.8`. -/
def is_plausible_uk (lat lon : ℚ) : Bool :=
  if (49.8 : ℚ) ≤ lat ∧ lat ≤ 60.9 ∧ (-8.6 : ℚ) ≤ lon ∧ lon ≤ 1.8 then true else false

/-- A POI candidate returned by the Nominatim search service: the fields the
pipeline reads are `lat` and `lon` (parsed to numbers by `float(...)`). -/
structure Poi where
  lat : ℚ
  lon : ℚ
deriving Repr, DecidableEq

/-- An element returned by the Overpass entity query: a point with a tag
mapping (Python dict, modelled as an association list; lookup returns the
first binding of a key). -/
structure OSMElement where
  lat : ℚ
  lon : ℚ
  tags : List (String × String)
deriving Repr, DecidableEq

/-- `tags.get k` on the element's tag dictionary. -/
def lookupTag (tags : List (String × String)) (k : String) : Option String :=
  (tags.find? (fun p => p.1 == k)).map Prod.snd

/-- The tie-break score of `overpass_find_entrance`:
0 if `tags.get "entrance" == "main"`, 1 if `"entrance" in tags`, else 2. -/
def score (el : OSMElement) : ℕ :=
  if lookupTag el.tags "entrance" = some "main" then 0
  else if (lookupTag el.tags "entrance").isSome then 1
  else 2

/-- The element selected by `els.sort(key=score); best = els[0]`:
Python's sort is stable, so the head of the sorted list is the first
element (in original order) attaining the minimal score.  `none` on the
empty list. -/
def selectBest : List OSMElement → Option OSMElement
  | [] => none
  | x :: xs =>
    match selectBest xs with
    | none => some x
    | some y => if score x ≤ score y then some x else some y

/-- `overpass_find_entrance`, given the element list of a successful
response: `None` when `els` is empty, otherwise
`(best["lat"], best["lon"], best)` for the stably-sorted minimum. -/
def overpass_find_entrance (els : List OSMElement) : Option (ℚ × ℚ × OSMElement) :=
  (selectBest els).map (fun b => (b.lat, b.lon, b))

/-- The external world as seen by one pipeline run: each service call is a
pure function of its request.  `nominatim name postcode` models
`nominatim_search(name, postcode)` (the `.error` case is a raised
exception, `.ok none` an empty result list, `.ok (some p)` a single
candidate); `overpass lat lon` models the transport/parse part of
`overpass_find_entrance(lat, lon)` (the `.error` case a raised exception,
`.ok els` the decoded `elements` list). -/
structure Env where
  nominatim : String → String → Except String (Option Poi)
  overpass : ℚ → ℚ → Except String (List OSMElement)

/-- The per-record mutable locals of the main loop:
`lat, lon, confidence, needs_review, method, intent, notes`. -/
structure PState where
  lat : Option ℚ
  lon : Option ℚ
  confidence : ℕ
  needs_review : Bool
  method : String
  intent : String
  notes : List String
deriving Repr, DecidableEq

/-- The initial values of the per-record locals
(`lat = lon = None`, `confidence = 0`, `needs_review = False`,
`method = "fallback"`, `intent = "public_entrance"`, `notes = []`). -/
def initState : PState :=
  { lat := none, lon := none, confidence := 0, needs_review := false
    method := "fallback", intent := "public_entrance", notes := [] }

/-- The per-record state after the Nominatim stage and (when reached) the
Overpass stage, before the final plausibility check.  This is the block of
`main` from `lat = None` through the `else: ... method = "no_match"`
branch, with the three outcomes of the Nominatim call (exception, empty
result, candidate) and, inside the candidate branch, the three outcomes of
the Overpass call split into cases. -/
def resolveRecord (env : Env) (name postcode : String) : PState :=
  let s0 := initState
  match env.nominatim name postcode with
  | .error e =>
    -- `except` branch: note, review flag; `nom` stays `None`, so the
    -- `else` (no-match) branch runs next.
    let s1 := { s0 with notes := s0.notes ++ ["Nominatim failed: " ++ e],
                        needs_review := true }
    { s1 with needs_review := true, notes := s1.notes ++ ["No geocode match"],
              confidence := 0, method := "no_match" }
  | .ok none =>
    -- call succeeded ("Nominatim OK") but returned no candidate.
    let s1 := { s0 with notes := s0.notes ++ ["Nominatim OK"] }
    { s1 with needs_review := true, notes := s1.notes ++ ["No geocode match"],
              confidence := 0, method := "no_match" }
  | .ok (some p) =>
    let s1 := { s0 with notes := s0.notes ++ ["Nominatim OK"] }
    -- `if nom:` branch: adopt the POI point.
    let sA := { s1 with lat := some p.lat, lon := some p.lon,
                        method := "nominatim_poi", confidence := 65,
                        notes := s1.notes ++ ["Nominatim POI match"] }
    match env.overpass p.lat p.lon with
    | .error e =>
      -- `except` branch of the Overpass call; `ent` stays `None`.
      let sB := { sA with notes := sA.notes ++ ["Overpass failed: " ++ e],
                          needs_review := true }
      { sB with needs_review := true,
                notes := sB.notes ++
                  ["No entrance node; using POI location (likely centroid/site point)"],
                confidence := 60 }
    | .ok els =>
      let sB := { sA with notes := sA.notes ++ ["Overpass OK"] }
      match overpass_find_entrance els with
      | some (elat, elon, el) =>
        { sB with lat := some elat, lon := some elon,
                  method := "overpass_entrance", confidence := 85,
                  intent := if lookupTag el.tags "entrance" = some "main"
                            then "main_entrance" else "entrance_nearby",
                  notes := sB.notes ++ ["Entrance node found"] }
      | none =>
        { sB with needs_review := true,
                  notes := sB.notes ++
                    ["No entrance node; using POI location (likely centroid/site point)"],
                  confidence := 60 }

/-- The final plausibility check of `main`: missing coordinates force
review and zero confidence; an implausible point forces review, appends the
note and caps confidence at 20. -/
def finalizeState (s : PState) : PState :=
  match s.lat, s.lon with
  | some la, some lo =>
    if is_plausible_uk la lo then s
    else { s with needs_review := true,
                  notes := s.notes ++ ["Implausible UK bounds"],
                  confidence := min s.confidence 20 }
  | _, _ =>
    { s with needs_review := true, notes := s.notes ++ ["Missing coordinates"],
             confidence := 0 }

/-- One record's full processing: resolution stages then finalization. -/
def processRecord (env : Env) (name postcode : String) : PState :=
  finalizeState (resolveRecord env name postcode)

/-- One input row of the dataset: the columns `main` reads.  `name` and
`postcode` are the stripped string values used to build the query. -/
structure InRow where
  id : String
  name : String
  postcode : String
  anchor_type : String
  subtype : String
  latitude : Option ℚ
  longitude : Option ℚ
deriving Repr, DecidableEq

/-- One output row: the original columns (unchanged by the loop) plus the
columns written by the `df.at[idx, ...] = ...` block. -/
structure OutRow where
  row : InRow
  lat_corrected : Option ℚ
  lon_corrected : Option ℚ
  point_intent : String
  correction_method : String
  confidence_score : ℕ
  change_note : String
  source_checked : String
  last_verified_date : String
  needs_manual_review : Bool
deriving Repr, DecidableEq

/-- The `df.at[idx, ...] = ...` writes for one record, given its final
state (`change_note` is `" ".join(notes)`). -/
def writeRow (today : String) (r : InRow) (s : PState) : OutRow :=
  { row := r
    lat_corrected := s.lat
    lon_corrected := s.lon
    point_intent := s.intent
    correction_method := s.method
    confidence_score := s.confidence
    change_note := String.intercalate " " s.notes
    source_checked := "OSM:Nominatim; OSM:Overpass"
    last_verified_date := today
    needs_manual_review := s.needs_review }

/-- One changelog entry, as appended by `changelog.append({...})`. -/
structure ChangeEntry where
  id : String
  name : String
  anchor_type : String
  subtype : String
  postcode : String
  old_lat : Option ℚ
  old_lon : Option ℚ
  new_lat : Option ℚ
  new_lon : Option ℚ
  method : String
  confidence : ℕ
  notes : String
deriving Repr, DecidableEq

/-- Builds the changelog entry for one record from its input row and final
state. -/
def changeEntry (r : InRow) (s : PState) : ChangeEntry :=
  { id := r.id, name := r.name, anchor_type := r.anchor_type
    subtype := r.subtype, postcode := r.postcode
    old_lat := r.latitude, old_lon := r.longitude
    new_lat := s.lat, new_lon := s.lon
    method := s.method, confidence := s.confidence
    notes := String.intercalate " " s.notes }

/-- One loop iteration's outputs: the written row and the appended
changelog entry. -/
def processRow (env : Env) (today : String) (r : InRow) : OutRow × ChangeEntry :=
  let s := processRecord env r.name r.postcode
  (writeRow today r s, changeEntry r s)

/-- The `for idx, row in df.iterrows()` loop: each record is written back
in place (so output rows keep the input order) and one changelog entry is
appended per iteration (so the changelog keeps the input order too). -/
def mainLoop (env : Env) (today : String) : List InRow → List OutRow × List ChangeEntry
  | [] => ([], [])
  | r :: rs =>
    let out := processRow env today r
    let rest := mainLoop env today rs
    (out.1 :: rest.1, out.2 :: rest.2)

/-- The whole pipeline on an input dataset: the corrected rows written to
the output file and the changelog rows. -/
def runPipeline (env : Env) (today : String) (rows : List InRow) :
    List OutRow × List ChangeEntry :=
  mainLoop env today rows

/-- The columns the pipeline adds/overwrites on a row (everything except
the untouched original columns). -/
structure CorrectedCols where
  lat_corrected : Option ℚ
  lon_corrected : Option ℚ
  point_intent : String
  correction_method : String
  confidence_score : ℕ
  change_note : String
  source_checked : String
  last_verified_date : String
  needs_manual_review : Bool
deriving Repr, DecidableEq

/-- Projects an output row to its corrected/audit columns. -/
def corrected (o : OutRow) : CorrectedCols :=
  { lat_corrected := o.lat_corrected, lon_corrected := o.lon_corrected
    point_intent := o.point_intent, correction_method := o.correction_method
    confidence_score := o.confidence_score, change_note := o.change_note
    source_checked := o.source_checked
    last_verified_date := o.last_verified_date
    needs_manual_review := o.needs_manual_review }

/-- Re-reads an output row as an input row, treating the corrected
coordinates as the new originals (all identifying columns are unchanged by
the pipeline). -/
def outputToInput (o : OutRow) : InRow :=
  { o.row with latitude := o.lat_corrected, longitude := o.lon_corrected }

/-! ### Throttling trace model

The source sleeps `NOMINATIM_SLEEP_S` (resp. `OVERPASS_SLEEP_S`) inside the
`try` block, after a successful call; a raised exception skips the sleep.
We model the timed behaviour of a run as a trace of events: each external
request (tagged with its service key and whether it succeeded) and each
sleep with its duration.  Only sleeps consume modelled time. -/

/-- `NOMINATIM_SLEEP_S = 1.1`. -/
def NOMINATIM_SLEEP_S : ℚ := 1.1

/-- `OVERPASS_SLEEP_S = 1.1`. -/
def OVERPASS_SLEEP_S : ℚ := 1.1

/-- The two throttle keys: one per external service. -/
inductive SKey where
  | nominatim
  | overpass
deriving Repr, DecidableEq

/-- The configured minimum inter-request interval for a service key. -/
def interval : SKey → ℚ
  | .nominatim => NOMINATIM_SLEEP_S
  | .overpass => OVERPASS_SLEEP_S

/-- A timed event of a pipeline run: an external request (with its key and
success flag) or a sleep of a given duration. -/
inductive Ev where
  | call (k : SKey) (success : Bool)
  | sleep (d : ℚ)
deriving Repr, DecidableEq

/-- The event trace of one record's processing, following the control flow
of `main`: the Nominatim request always happens; the sleep runs only when
the request did not raise; the Overpass request happens only on a POI
match, again with the sleep only on success. -/
def traceRecord (env : Env) (name postcode : String) : List Ev :=
  match env.nominatim name postcode with
  | .error _ => [Ev.call .nominatim false]
  | .ok none => [Ev.call .nominatim true, Ev.sleep NOMINATIM_SLEEP_S]
  | .ok (some p) =>
    [Ev.call .nominatim true, Ev.sleep NOMINATIM_SLEEP_S] ++
    (match env.overpass p.lat p.lon with
     | .error _ => [Ev.call .overpass false]
     | .ok _ => [Ev.call .overpass true, Ev.sleep OVERPASS_SLEEP_S])

/-- The event trace of a whole pipeline run: records are processed
strictly in sequence. -/
def pipelineTrace (env : Env) (rows : List InRow) : List Ev :=
  (rows.map (fun r => traceRecord env r.name r.postcode)).flatten

/-- The sleep duration of an event (0 for a request). -/
def sleepDur : Ev → ℚ
  | .sleep d => d
  | .call _ _ => 0

/-- Total modelled time elapsing across a trace segment. -/
def sleepSum (tr : List Ev) : ℚ :=
  tr.foldr (fun e acc => sleepDur e + acc) 0

/-- `e` is a request event for key `k`. -/
def isCallTo (e : Ev) (k : SKey) : Prop :=
  ∃ b, e = Ev.call k b

/-- The throttling guarantee as the specification states it: between any
two consecutive requests to the same service key, at least that key's
configured minimum interval of time elapses. -/
def MinGap (tr : List Ev) : Prop :=
  ∀ k i j (hi : i < tr.length) (hj : j < tr.length), i < j →
    isCallTo (tr.get ⟨i, hi⟩) k → isCallTo (tr.get ⟨j, hj⟩) k →
    (∀ m (hm : m < tr.length), i < m → m < j → ¬ isCallTo (tr.get ⟨m, hm⟩) k) →
    interval k ≤ sleepSum ((tr.drop (i + 1)).take (j - i - 1))

/-- What the code actually guarantees: every successful request is
immediately followed by a sleep of its key's configured interval (a failed
request is followed by no sleep at all). -/
def ThrottledAfterSuccess : List Ev → Prop
  | [] => True
  | e :: rest =>
    (∀ k, e = Ev.call k true → ∃ tail, rest = Ev.sleep (interval k) :: tail) ∧
    ThrottledAfterSuccess rest

/-! ### Concrete fixtures used to instantiate the theorems -/

/-- An element with no tags (reached via the highway-entrance query path):
tie-break score 2. -/
def elScore2 : OSMElement := ⟨54.9702, -1.6098, []⟩

/-- An element tagged `entrance=main`: tie-break score 0. -/
def elScore0 : OSMElement := ⟨54.9701, -1.6099, [("entrance", "main")]⟩

/-- An element tagged `entrance=side`: tie-break score 1. -/
def elScore1 : OSMElement := ⟨54.9703, -1.6097, [("entrance", "side")]⟩

/-- A world where the POI search succeeds with zero results. -/
def envNoMatch : Env :=
  { nominatim := fun _ _ => .ok none, overpass := fun _ _ => .ok [] }

/-- A world where every POI search raises a transport error. -/
def envFail : Env :=
  { nominatim := fun _ _ => .error "boom", overpass := fun _ _ => .ok [] }

/-- A world where the POI search returns a point outside the UK bounding
box and the entity query raises a transport error. -/
def envImplausible : Env :=
  { nominatim := fun _ _ => .ok (some ⟨61, 0⟩), overpass := fun _ _ => .error "down" }

/-- A world where the POI search returns a plausible point and the entity
query returns a single `entrance=main` node. -/
def envEntrance : Env :=
  { nominatim := fun _ _ => .ok (some ⟨54.97, -1.61⟩),
    overpass := fun _ _ => .ok [elScore0] }

/-- A sample input row. -/
def rowA : InRow :=
  { id := "1", name := "Acme Library", postcode := "NE1 1AA"
    anchor_type := "library", subtype := "public"
    latitude := none, longitude := none }

/-- A second sample input row. -/
def rowB : InRow :=
  { id := "2", name := "Beta Hall", postcode := "NE2 2BB"
    anchor_type := "venue", subtype := "hall"
    latitude := some 54.9, longitude := some (-1.6) }

/-! ### Helper lemmas -/

theorem finalizeState_method (s : PState) : (finalizeState s).method = s.method := by
  unfold finalizeState
  split
  · split <;> rfl
  · rfl

theorem finalizeState_intent (s : PState) : (finalizeState s).intent = s.intent := by
  unfold finalizeState
  split
  · split <;> rfl
  · rfl

theorem finalizeState_lat (s : PState) : (finalizeState s).lat = s.lat := by
  unfold finalizeState
  split
  · split <;> rfl
  · rfl

theorem finalizeState_lon (s : PState) : (finalizeState s).lon = s.lon := by
  unfold finalizeState
  split
  · split <;> rfl
  · rfl

theorem finalizeState_implausible (s : PState) (la lo : ℚ)
    (h1 : s.lat = some la) (h2 : s.lon = some lo)
    (h3 : is_plausible_uk la lo = false) :
    finalizeState s =
      { s with needs_review := true
               notes := s.notes ++ ["Implausible UK bounds"]
               confidence := min s.confidence 20 } := by
  obtain ⟨slat, slon, c, rev, m, i, ns⟩ := s
  dsimp only at h1 h2
  subst h1 h2
  unfold finalizeState
  simp [h3]

theorem finalizeState_confidence (s : PState) (la lo : ℚ)
    (h1 : s.lat = some la) (h2 : s.lon = some lo) :
    (finalizeState s).confidence =
      if is_plausible_uk la lo then s.confidence else min s.confidence 20 := by
  unfold finalizeState
  rw [h1, h2]
  by_cases hp : is_plausible_uk la lo <;> simp [hp]

/-! ### C1 -/

/-- C1 helper: at the state level, a `no_match` method forces absent
coordinates, zero confidence and the review flag. -/
theorem processRecord_no_match (env : Env) (n pc : String)
    (h : (processRecord env n pc).method = "no_match") :
    (processRecord env n pc).lat = none ∧ (processRecord env n pc).lon = none ∧
      (processRecord env n pc).confidence = 0 ∧
      (processRecord env n pc).needs_review = true := by
  have hm : (resolveRecord env n pc).method = "no_match" := by
    have hp := finalizeState_method (resolveRecord env n pc)
    unfold processRecord at h
    rw [hp] at h
    exact h
  rcases hn : env.nominatim n pc with e | op
  · unfold processRecord
    simp [resolveRecord, finalizeState, initState, hn]
  · rcases op with _ | p
    · unfold processRecord
      simp [resolveRecord, finalizeState, initState, hn]
    · exfalso
      rcases ho : env.overpass p.lat p.lon with e2 | els
      · simp [resolveRecord, hn, ho] at hm
      · rcases he : overpass_find_entrance els with _ | best
        · simp [resolveRecord, hn, ho, he] at hm
        · simp [resolveRecord, hn, ho, he] at hm

/-- C1: for every processed record whose persisted `correction_method` is
`"no_match"`, the persisted `lat_corrected` and `lon_corrected` are both
absent, the persisted `confidence_score` is 0, and `needs_manual_review`
is true. -/
theorem no_match_persisted_shape (env : Env) (today : String) (r : InRow)
    (h : ((processRow env today r).1).correction_method = "no_match") :
    ((processRow env today r).1).lat_corrected = none ∧
      ((processRow env today r).1).lon_corrected = none ∧
      ((processRow env today r).1).confidence_score = 0 ∧
      ((processRow env today r).1).needs_manual_review = true :=
  processRecord_no_match env r.name r.postcode h

/-- C1 witness: a world whose POI search returns zero results produces a
`no_match` record satisfying the invariant. -/
theorem no_match_persisted_shape_witness :
    ((processRow envNoMatch "2026-10-12" rowA).1).lat_corrected = none ∧
      ((processRow envNoMatch "2026-10-12" rowA).1).lon_corrected = none ∧
      ((processRow envNoMatch "2026-10-12" rowA).1).confidence_score = 0 ∧
      ((processRow envNoMatch "2026-10-12" rowA).1).needs_manual_review = true :=
  no_match_persisted_shape envNoMatch "2026-10-12" rowA rfl

/-! ### C2 -/

/-- C2: when the final coordinates are both present but fail the bounding
box test, the finalize step forces the review flag, appends the note
"Implausible UK bounds" and caps confidence at 20, leaving every other
field of the upstream state — in particular `method` and `intent` — as the
upstream stage assigned them. -/
theorem implausible_finalize (env : Env) (n pc : String) (la lo : ℚ)
    (h1 : (resolveRecord env n pc).lat = some la)
    (h2 : (resolveRecord env n pc).lon = some lo)
    (h3 : is_plausible_uk la lo = false) :
    processRecord env n pc =
      { resolveRecord env n pc with
        needs_review := true
        notes := (resolveRecord env n pc).notes ++ ["Implausible UK bounds"]
        confidence := min (resolveRecord env n pc).confidence 20 } :=
  finalizeState_implausible (resolveRecord env n pc) la lo h1 h2 h3

/-- C2 witness: a POI at (61, 0) — outside the box — with a failing
entrance lookup, run through the finalize step. -/
theorem implausible_finalize_witness :
    processRecord envImplausible "Acme Library" "NE1 1AA" =
      { resolveRecord envImplausible "Acme Library" "NE1 1AA" with
        needs_review := true
        notes := (resolveRecord envImplausible "Acme Library" "NE1 1AA").notes ++
          ["Implausible UK bounds"]
        confidence :=
          min (resolveRecord envImplausible "Acme Library" "NE1 1AA").confidence 20 } :=
  implausible_finalize envImplausible "Acme Library" "NE1 1AA" 61 0 rfl rfl
    (by norm_num [is_plausible_uk])

/-! ### C3 -/

/-- C3: when the entrance snapper returns a candidate, the persisted
coordinates are the entrance point, the method is `overpass_entrance`, the
intent is `main_entrance` exactly when the candidate's entrance tag is
"main" (else `entrance_nearby`), the upstream confidence is 85 with the
note "Entrance node found" appended last, and the persisted confidence is
85 unless the plausibility check downgrades it to 20. -/
theorem entrance_assignment (env : Env) (today : String) (r : InRow) (p : Poi)
    (els : List OSMElement) (elat elon : ℚ) (el : OSMElement)
    (hn : env.nominatim r.name r.postcode = Except.ok (some p))
    (ho : env.overpass p.lat p.lon = Except.ok els)
    (he : overpass_find_entrance els = some (elat, elon, el)) :
    ((processRow env today r).1).lat_corrected = some elat ∧
      ((processRow env today r).1).lon_corrected = some elon ∧
      ((processRow env today r).1).correction_method = "overpass_entrance" ∧
      ((processRow env today r).1).point_intent =
        (if lookupTag el.tags "entrance" = some "main"
         then "main_entrance" else "entrance_nearby") ∧
      (resolveRecord env r.name r.postcode).confidence = 85 ∧
      (resolveRecord env r.name r.postcode).notes.getLast? =
        some "Entrance node found" ∧
      ((processRow env today r).1).confidence_score =
        (if is_plausible_uk elat elon then 85 else 20) := by
  have hres : resolveRecord env r.name r.postcode =
      { lat := some elat, lon := some elon, confidence := 85
        needs_review := false, method := "overpass_entrance"
        intent := if lookupTag el.tags "entrance" = some "main"
                  then "main_entrance" else "entrance_nearby"
        notes := ["Nominatim OK", "Nominatim POI match", "Overpass OK",
                  "Entrance node found"] } := by
    simp [resolveRecord, initState, hn, ho, he]
  refine ⟨?_, ?_, ?_, ?_, ?_, ?_, ?_⟩
  · show (finalizeState (resolveRecord env r.name r.postcode)).lat = some elat
    rw [finalizeState_lat, hres]
  · show (finalizeState (resolveRecord env r.name r.postcode)).lon = some elon
    rw [finalizeState_lon, hres]
  · show (finalizeState (resolveRecord env r.name r.postcode)).method = _
    rw [finalizeState_method, hres]
  · show (finalizeState (resolveRecord env r.name r.postcode)).intent = _
    rw [finalizeState_intent, hres]
  · rw [hres]
  · rw [hres]
    rfl
  · show (finalizeState (resolveRecord env r.name r.postcode)).confidence = _
    rw [finalizeState_confidence (resolveRecord env r.name r.postcode) elat elon
      (by rw [hres]) (by rw [hres]), hres]
    by_cases hp : is_plausible_uk elat elon = true
    · simp [hp]
    · simp [hp]

/-- C3 witness: a single `entrance=main` candidate near a plausible POI
point. -/
theorem entrance_assignment_witness :
    ((processRow envEntrance "2026-10-12" rowA).1).lat_corrected =
        some elScore0.lat ∧
      ((processRow envEntrance "2026-10-12" rowA).1).lon_corrected =
        some elScore0.lon ∧
      ((processRow envEntrance "2026-10-12" rowA).1).correction_method =
        "overpass_entrance" ∧
      ((processRow envEntrance "2026-10-12" rowA).1).point_intent =
        (if lookupTag elScore0.tags "entrance" = some "main"
         then "main_entrance" else "entrance_nearby") ∧
      (resolveRecord envEntrance rowA.name rowA.postcode).confidence = 85 ∧
      (resolveRecord envEntrance rowA.name rowA.postcode).notes.getLast? =
        some "Entrance node found" ∧
      ((processRow envEntrance "2026-10-12" rowA).1).confidence_score =
        (if is_plausible_uk elScore0.lat elScore0.lon then 85 else 20) :=
  entrance_assignment envEntrance "2026-10-12" rowA ⟨54.97, -1.61⟩ [elScore0]
    elScore0.lat elScore0.lon elScore0 rfl rfl rfl

/-! ### C4 -/

theorem selectBest_cons (x : OSMElement) (xs : List OSMElement) :
    selectBest (x :: xs) =
      match selectBest xs with
      | none => some x
      | some y => if score x ≤ score y then some x else some y := rfl

/-- C4 helper: on a non-empty list, `selectBest` returns an element of the
list of minimal score that is earliest in the original order: every list
element scores at least as much, and every element strictly before it
scores strictly more. -/
theorem selectBest_spec (els : List OSMElement) (hne : els ≠ []) :
    ∃ b pre suf, selectBest els = some b ∧ els = pre ++ b :: suf ∧
      (∀ c ∈ els, score b ≤ score c) ∧ (∀ c ∈ pre, score b < score c) := by
  induction els with
  | nil => exact absurd rfl hne
  | cons x xs ih =>
    cases xs with
    | nil =>
      refine ⟨x, [], [], rfl, rfl, ?_, ?_⟩
      · intro c hc
        simp only [List.mem_singleton] at hc
        subst hc
        exact le_refl _
      · intro c hc
        simp at hc
    | cons y ys =>
      obtain ⟨b, pre, suf, hsel, hsplit, hmin, hpre⟩ := ih (by simp)
      by_cases hle : score x ≤ score b
      · refine ⟨x, [], y :: ys, ?_, rfl, ?_, ?_⟩
        · rw [selectBest_cons, hsel]
          simp [hle]
        · intro c hc
          rcases List.mem_cons.mp hc with hcx | hcs
          · subst hcx; exact le_refl _
          · exact le_trans hle (hmin c hcs)
        · intro c hc
          simp at hc
      · have hlt : score b < score x := Nat.lt_of_not_le hle
        refine ⟨b, x :: pre, suf, ?_, ?_, ?_, ?_⟩
        · rw [selectBest_cons, hsel]
          simp [hle]
        · simp [hsplit]
        · intro c hc
          rcases List.mem_cons.mp hc with hcx | hcs
          · subst hcx; exact le_of_lt hlt
          · exact hmin c hcs
        · intro c hc
          rcases List.mem_cons.mp hc with hcx | hcs
          · subst hcx; exact hlt
          · exact hpre c hcs

/-- C4: for every non-empty candidate list, `overpass_find_entrance`
returns the candidate of minimal tie-break score, choosing the earliest in
the service's original ordering among ties: the selected candidate `b`
splits the list as `pre ++ b :: suf` with every element scoring at least
`score b` and every element of `pre` scoring strictly more. -/
theorem entrance_tiebreak (els : List OSMElement) (hne : els ≠ []) :
    ∃ b pre suf, overpass_find_entrance els = some (b.lat, b.lon, b) ∧
      els = pre ++ b :: suf ∧ (∀ c ∈ els, score b ≤ score c) ∧
      (∀ c ∈ pre, score b < score c) := by
  obtain ⟨b, pre, suf, hsel, hsplit, hmin, hpre⟩ := selectBest_spec els hne
  exact ⟨b, pre, suf, by simp [overpass_find_entrance, hsel], hsplit, hmin, hpre⟩

/-- C4 witness: three candidates scoring 2, 0, 1 in input order; the one
scoring 0 is selected. -/
theorem entrance_tiebreak_witness :
    (score elScore2 = 2 ∧ score elScore0 = 0 ∧ score elScore1 = 1) ∧
      overpass_find_entrance [elScore2, elScore0, elScore1] =
        some (elScore0.lat, elScore0.lon, elScore0) ∧
      ∃ b pre suf,
        overpass_find_entrance [elScore2, elScore0, elScore1] =
            some (b.lat, b.lon, b) ∧
          [elScore2, elScore0, elScore1] = pre ++ b :: suf ∧
          (∀ c ∈ [elScore2, elScore0, elScore1], score b ≤ score c) ∧
          (∀ c ∈ pre, score b < score c) :=
  ⟨by decide, rfl, entrance_tiebreak [elScore2, elScore0, elScore1] (by simp)⟩

/-! ### C5 -/

theorem mainLoop_fst (env : Env) (today : String) (rows : List InRow) :
    (mainLoop env today rows).1 = rows.map (fun r => (processRow env today r).1) := by
  induction rows with
  | nil => rfl
  | cons r rs ih => simp [mainLoop, ih]

theorem mainLoop_snd (env : Env) (today : String) (rows : List InRow) :
    (mainLoop env today rows).2 = rows.map (fun r => (processRow env today r).2) := by
  induction rows with
  | nil => rfl
  | cons r rs ih => simp [mainLoop, ih]

/-- C5: the pipeline yields exactly one output record and one changelog
entry per input record — both lengths equal the input length — and both
sequences preserve the input order 1:1: position `i` of the output (resp.
changelog) is exactly the processing of input row `i`. -/
theorem pipeline_counts_order (env : Env) (today : String) (rows : List InRow) :
    (runPipeline env today rows).1.length = rows.length ∧
      (runPipeline env today rows).2.length = rows.length ∧
      ∀ i,
        (runPipeline env today rows).1.get? i =
            (rows.get? i).map (fun r => (processRow env today r).1) ∧
          (runPipeline env today rows).2.get? i =
            (rows.get? i).map (fun r => (processRow env today r).2) := by
  refine ⟨?_, ?_, fun i => ⟨?_, ?_⟩⟩ <;>
    simp [runPipeline, mainLoop_fst, mainLoop_snd]

/-- C5 witness: a two-row run yields two output rows. -/
theorem pipeline_counts_order_witness :
    (runPipeline envNoMatch "2026-10-12" [rowA, rowB]).1.length = 2 :=
  (pipeline_counts_order envNoMatch "2026-10-12" [rowA, rowB]).1

/-! ### C6 -/

/-- C6: re-running the pipeline on its own output — treating the corrected
coordinates as the new originals — against the same external responses
yields identical corrected columns: the corrected columns depend only on
each record's name and postcode and on the external responses, never on
prior coordinates or previously corrected columns. -/
theorem pipeline_idempotent (env : Env) (today : String) (rows : List InRow) :
    ((runPipeline env today
          (((runPipeline env today rows).1).map outputToInput)).1).map corrected =
      ((runPipeline env today rows).1).map corrected := by
  simp only [runPipeline, mainLoop_fst, List.map_map]
  rfl

/-! ### C7 -/

theorem resolveRecord_method (env : Env) (n pc : String) :
    (resolveRecord env n pc).method = "overpass_entrance" ∨
      (resolveRecord env n pc).method = "nominatim_poi" ∨
      (resolveRecord env n pc).method = "no_match" := by
  rcases hn : env.nominatim n pc with e | op
  · right; right; simp [resolveRecord, initState, hn]
  · rcases op with _ | p
    · right; right; simp [resolveRecord, initState, hn]
    · rcases ho : env.overpass p.lat p.lon with e2 | els
      · right; left; simp [resolveRecord, initState, hn, ho]
      · rcases he : overpass_find_entrance els with _ | best
        · right; left; simp [resolveRecord, initState, hn, ho, he]
        · rcases best with ⟨elat, elon, el⟩
          left; simp [resolveRecord, initState, hn, ho, he]

/-- C7: the persisted `correction_method` — both in the output row and in
the record's changelog entry, which always agree — is one of
`overpass_entrance`, `nominatim_poi`, `no_match`; the initial sentinel
`"fallback"` is never persisted. -/
theorem method_never_fallback (env : Env) (today : String) (r : InRow) :
    (((processRow env today r).1).correction_method = "overpass_entrance" ∨
        ((processRow env today r).1).correction_method = "nominatim_poi" ∨
        ((processRow env today r).1).correction_method = "no_match") ∧
      ((processRow env today r).1).correction_method ≠ "fallback" ∧
      ((processRow env today r).2).method =
        ((processRow env today r).1).correction_method := by
  have hm : ((processRow env today r).1).correction_method =
      (resolveRecord env r.name r.postcode).method :=
    finalizeState_method _
  have hm2 : ((processRow env today r).2).method =
      (resolveRecord env r.name r.postcode).method :=
    finalizeState_method _
  refine ⟨?_, ?_, by rw [hm, hm2]⟩
  · rw [hm]
    exact resolveRecord_method env r.name r.postcode
  · rw [hm]
    rcases resolveRecord_method env r.name r.postcode with h | h | h <;>
      rw [h] <;> decide

/-! ### C8 -/

theorem finalizeState_review_false (s : PState) :
    (finalizeState s).needs_review = false ↔
      s.needs_review = false ∧
        ∃ la lo, s.lat = some la ∧ s.lon = some lo ∧
          is_plausible_uk la lo = true := by
  obtain ⟨slat, slon, c, rev, m, i, ns⟩ := s
  rcases slat with _ | la <;> rcases slon with _ | lo <;>
    unfold finalizeState <;> simp
  by_cases hp : is_plausible_uk la lo = true
  · simp [hp]
  · simp [hp]

/-- C8: the persisted `needs_manual_review` is false iff the POI lookup
succeeded with a match, the entrance lookup succeeded with a candidate,
and the chosen entrance point passes the plausibility bounding-box test;
every other outcome persists true. -/
theorem review_false_iff (env : Env) (today : String) (r : InRow) :
    ((processRow env today r).1).needs_manual_review = false ↔
      ∃ p els la lo el,
        env.nominatim r.name r.postcode = Except.ok (some p) ∧
          env.overpass p.lat p.lon = Except.ok els ∧
          overpass_find_entrance els = some (la, lo, el) ∧
          is_plausible_uk la lo = true := by
  show (processRecord env r.name r.postcode).needs_review = false ↔ _
  unfold processRecord
  rw [finalizeState_review_false]
  constructor
  · rintro ⟨hrev, la, lo, hla, hlo, hp⟩
    rcases hn : env.nominatim r.name r.postcode with e | op
    · simp [resolveRecord, initState, hn] at hrev
    · rcases op with _ | p
      · simp [resolveRecord, initState, hn] at hrev
      · rcases ho : env.overpass p.lat p.lon with e2 | els
        · simp [resolveRecord, initState, hn, ho] at hrev
        · rcases he : overpass_find_entrance els with _ | best
          · simp [resolveRecord, initState, hn, ho, he] at hrev
          · rcases best with ⟨elat, elon, el⟩
            simp [resolveRecord, initState, hn, ho, he] at hla hlo
            subst hla
            subst hlo
            exact ⟨p, els, elat, elon, el, rfl, ho, he, hp⟩
  · rintro ⟨p, els, la, lo, el, hn, ho, he, hp⟩
    refine ⟨?_, la, lo, ?_, ?_, hp⟩ <;>
      simp [resolveRecord, initState, hn, ho, he]

/-! ### C9 -/

/-- C9: when the POI lookup raises a failure signal, the persisted outcome
has the same shape as the zero-results case — method `no_match`, absent
coordinates, confidence 0, review flag set — and the persisted change note
is exactly the failure note followed by "No geocode match" and "Missing
coordinates" (so method and confidence do not distinguish a service
failure from a no-results response). -/
theorem poi_failure_like_no_match (env : Env) (today : String) (r : InRow)
    (e : String) (hn : env.nominatim r.name r.postcode = Except.error e) :
    ((processRow env today r).1).correction_method = "no_match" ∧
      ((processRow env today r).1).lat_corrected = none ∧
      ((processRow env today r).1).lon_corrected = none ∧
      ((processRow env today r).1).confidence_score = 0 ∧
      ((processRow env today r).1).needs_manual_review = true ∧
      ((processRow env today r).1).change_note =
        String.intercalate " "
          ["Nominatim failed: " ++ e, "No geocode match", "Missing coordinates"] := by
  have hstate : processRecord env r.name r.postcode =
      { lat := none, lon := none, confidence := 0, needs_review := true
        method := "no_match", intent := "public_entrance"
        notes := ["Nominatim failed: " ++ e, "No geocode match",
                  "Missing coordinates"] } := by
    unfold processRecord
    simp [resolveRecord, initState, finalizeState, hn]
  simp [processRow, writeRow, hstate]

/-- C9 witness: a world whose POI search always raises. -/
theorem poi_failure_like_no_match_witness :
    ((processRow envFail "2026-10-12" rowA).1).correction_method = "no_match" ∧
      ((processRow envFail "2026-10-12" rowA).1).lat_corrected = none ∧
      ((processRow envFail "2026-10-12" rowA).1).lon_corrected = none ∧
      ((processRow envFail "2026-10-12" rowA).1).confidence_score = 0 ∧
      ((processRow envFail "2026-10-12" rowA).1).needs_manual_review = true ∧
      ((processRow envFail "2026-10-12" rowA).1).change_note =
        String.intercalate " "
          ["Nominatim failed: " ++ "boom", "No geocode match",
           "Missing coordinates"] :=
  poi_failure_like_no_match envFail "2026-10-12" rowA "boom" rfl

/-! ### C10 -/

/-- C10 counterexample: when the POI search raises, no sleep runs for that
record, so two consecutive Nominatim requests are issued with zero modelled
time between them — the minimum-interval property fails on this run. -/
theorem throttle_min_gap_counterexample :
    ¬ MinGap (pipelineTrace envFail [rowA, rowB]) := by
  intro h
  have htr : pipelineTrace envFail [rowA, rowB] =
      [Ev.call SKey.nominatim false, Ev.call SKey.nominatim false] := rfl
  rw [htr] at h
  have h01 := h SKey.nominatim 0 1 (by norm_num) (by norm_num) (by norm_num)
    ⟨false, rfl⟩ ⟨false, rfl⟩ (fun m hm h1 h2 => absurd h2 (by omega))
  norm_num [interval, NOMINATIM_SLEEP_S, sleepSum, sleepDur] at h01

theorem throttled_nil : ThrottledAfterSuccess [] := trivial

theorem throttled_call_false_cons (k : SKey) (rest : List Ev)
    (h : ThrottledAfterSuccess rest) :
    ThrottledAfterSuccess (Ev.call k false :: rest) :=
  ⟨fun _ hk => by simp at hk, h⟩

theorem throttled_sleep_cons (d : ℚ) (rest : List Ev)
    (h : ThrottledAfterSuccess rest) :
    ThrottledAfterSuccess (Ev.sleep d :: rest) :=
  ⟨fun _ hk => by simp at hk, h⟩

theorem throttled_success_cons (k : SKey) (rest : List Ev)
    (h : ThrottledAfterSuccess (Ev.sleep (interval k) :: rest)) :
    ThrottledAfterSuccess (Ev.call k true :: Ev.sleep (interval k) :: rest) :=
  ⟨fun k2 hk => by
    injection hk with h1 h2
    subst h1
    exact ⟨rest, rfl⟩, h⟩

theorem throttledAfterSuccess_append (l1 l2 : List Ev)
    (h1 : ThrottledAfterSuccess l1) (h2 : ThrottledAfterSuccess l2) :
    ThrottledAfterSuccess (l1 ++ l2) := by
  induction l1 with
  | nil => simpa using h2
  | cons e rest ih =>
    obtain ⟨hhead, htail⟩ := h1
    show ThrottledAfterSuccess (e :: (rest ++ l2))
    refine ⟨?_, ih htail⟩
    intro k hk
    obtain ⟨tail, htl⟩ := hhead k hk
    refine ⟨tail ++ l2, ?_⟩
    rw [htl]
    rfl

theorem traceRecord_throttled (env : Env) (n pc : String) :
    ThrottledAfterSuccess (traceRecord env n pc) := by
  unfold traceRecord
  rcases hn : env.nominatim n pc with e | op
  · exact throttled_call_false_cons _ _ throttled_nil
  · rcases op with _ | p
    · exact throttled_success_cons SKey.nominatim []
        (throttled_sleep_cons _ [] throttled_nil)
    · have htail : ThrottledAfterSuccess
          (match env.overpass p.lat p.lon with
           | Except.error _ => [Ev.call SKey.overpass false]
           | Except.ok _ => [Ev.call SKey.overpass true, Ev.sleep OVERPASS_SLEEP_S]) := by
        rcases ho : env.overpass p.lat p.lon with e2 | els
        · exact throttled_call_false_cons _ _ throttled_nil
        · exact throttled_success_cons SKey.overpass []
            (throttled_sleep_cons _ [] throttled_nil)
      exact throttled_success_cons SKey.nominatim _
        (throttled_sleep_cons _ _ htail)

/-- C10, amended: the code sleeps for the configured interval (1.1 s)
immediately after each successful external request — so at least that
interval elapses before any later request to the same service — but a
failed request is followed by no sleep at all, and consecutive requests to
the same service are then not separated by the minimum interval. -/
theorem pipeline_trace_throttled (env : Env) (rows : List InRow) :
    ThrottledAfterSuccess (pipelineTrace env rows) := by
  induction rows with
  | nil => exact trivial
  | cons r rs ih =>
    show ThrottledAfterSuccess (traceRecord env r.name r.postcode ++ pipelineTrace env rs)
    exact throttledAfterSuccess_append _ _ (traceRecord_throttled env r.name r.postcode) ih
